import Mathlib

/-!
Verification of the ussb / tinyssb update engine.

This file gives a shallow embedding, in Lean 4, of the parts of the
repository that the checked properties talk about:

* the line-level diff/patch engine of `ussb/version_manager.py`
  (`get_changes`, `apply_changes`, `reverse_changes`, the path
  classification inside `jump_versions` and `_takewhile`);
* the packet codec of `ussb/packet.py` (`new_packet`, `pkt_from_wire`,
  `create_chain`, `create_upd_pkt`) and the feed operations of
  `optimize/tinyssb/feed.py` and `deprecated/tinyssb_update/tinyssb`
  (`append_packet`, `append_bytes`, `append_blob`,
  `verify_and_append_bytes`, `get_payload`, `get_upd_file_name`,
  `get_upd_version`, `Feed.append_pkt`);
* the configuration snapshot (`_save_config` / `_load_config`) and the
  update application logic (`_apply_update`) of the version manager.

Modelling conventions:

* Python byte strings are `List Nat` (each entry one byte);
  Python text strings are `List Char`.
* Python dictionaries are association lists in insertion order.
* sha256 and ed25519 are modelled symbolically by the executable keyed
  digest `fakeDigest`; no theorem below relies on any cryptographic
  property of the real functions, only on concrete evaluation, and a
  key pair is modelled by using the same bytes as signing and verifying
  key (in the code the fid is the public key of the signing key).
* File systems (feed logs, blob directory, workspace files) are explicit
  association lists threaded through the operations.
-/

/-! ### Byte-level helpers -/

/-- Python text strings are modelled as lists of characters. -/
abbrev Str := List Char

/-- Python `l[a:b]` for `0 ≤ a ≤ b` (clamped at the end of the list). -/
def sub (l : List Nat) (a b : Nat) : List Nat := (l.take b).drop a

/-- Big-endian encoding, `n.to_bytes(w, "big")` truncated to `w` bytes. -/
def toBytesBE (w n : Nat) : List Nat :=
  (List.range w).map fun i => n / 256 ^ (w - 1 - i) % 256

/-- Big-endian decoding, `int.from_bytes(b, "big")`. -/
def natFromBytesBE (b : List Nat) : Nat := b.foldl (fun a x => a * 256 + x) 0

/-- Modelled from the spec: the variable-length integer codec
`to_var_int` of the missing `util` module (`ussb/util.py` is not under
`src/`); §9 of the spec: lengths ≤ 252 take one byte, longer lengths a
continuation byte followed by the value. -/
def to_var_int (n : Nat) : List Nat :=
  if n ≤ 252 then [n] else [253, n / 256 % 256, n % 256]

/-- Modelled from the spec: the inverse `from_var_int` of the missing
`util` module; returns the decoded value and the number of bytes read. -/
def from_var_int (b : List Nat) : Nat × Nat :=
  match b with
  | [] => (0, 0)
  | x :: rest =>
    if x ≤ 252 then (x, 1)
    else
      match rest with
      | a :: c :: _ => (a * 256 + c, 3)
      | _ => (0, 1)

/-! ### Python list primitives

`list.insert` and `del list[i]` with Python index semantics: `insert`
clamps the index, `del` raises `IndexError` when the index is out of
range (modelled by `none`). -/

/-- The position at which Python `l.insert(i, x)` inserts: negative
indices count from the end and are clamped at 0, positive ones are
clamped at the length. -/
def pyIdxIns (len i : Int) : Int := if i < 0 then max (len + i) 0 else min i len

/-- The index Python `del l[i]` addresses before the range check. -/
def pyIdx (len i : Int) : Int := if i < 0 then len + i else i

/-- Python `l.insert(i, x)`. -/
def pyInsert {α : Type} (l : List α) (i : Int) (x : α) : List α :=
  l.take (pyIdxIns l.length i).toNat ++ x :: l.drop (pyIdxIns l.length i).toNat

/-- Python `del l[i]`; `none` models the `IndexError`. -/
def pyDelete {α : Type} (l : List α) (i : Int) : Option (List α) :=
  if 0 ≤ pyIdx l.length i ∧ pyIdx l.length i < l.length then
    some (l.take (pyIdx l.length i).toNat ++ l.drop ((pyIdx l.length i).toNat + 1))
  else none

/-! ### The diff/patch engine of `ussb/version_manager.py` -/

/-- A change record `(line_num, op, str)` as used throughout
`version_manager.py`; `op` is `'I'` or `'D'`. -/
abbrev Change := Int × Char × Str

/-- The loop body of `apply_changes` (version_manager.py lines 568-581)
acting on the line list; a delete at an out-of-range index is the Python
`IndexError`, modelled by `none`. -/
def applyChangesL (lines : List Str) : List Change → Option (List Str)
  | [] => some lines
  | (ln, op, s) :: rest =>
    if op = 'I' then applyChangesL (pyInsert lines (ln - 1) s) rest
    else if op = 'D' then (pyDelete lines (ln - 1)).bind fun l2 => applyChangesL l2 rest
    else applyChangesL lines rest

/-- `apply_changes(content, changes)` (version_manager.py lines 568-581):
split on newline, replay the change list, join with newline. -/
def apply_changes (content : Str) (changes : List Change) : Option Str :=
  (applyChangesL (content.splitOn '\n') changes).map (List.intercalate ['\n'])

/-- The trailing loop of `get_changes` emitting inserts for left-over new
lines (version_manager.py lines 810-811). -/
def trailingIns : List Str → Int → List Change
  | [], _ => []
  | l :: ls, ln => (ln, 'I', l) :: trailingIns ls (ln + 1)

/-- The main loop of `get_changes` (version_manager.py lines 783-811),
including the two trailing loops. -/
def getChangesGo : List Str → List Str → Int → List Change
  | [], news, ln => trailingIns news ln
  | o :: olds, [], ln => (o :: olds).map fun l => (ln, 'D', l)
  | o :: olds, n :: news, ln =>
    if o = n then getChangesGo olds news (ln + 1)
    else if o ∈ news then (ln, 'I', n) :: getChangesGo (o :: olds) news (ln + 1)
    else (ln, 'D', o) :: getChangesGo olds (n :: news) ln
termination_by old new _ => old.length + new.length

/-- `get_changes(old_version, new_version)` (version_manager.py lines
777-814). -/
def get_changes (old_version new_version : Str) : List Change :=
  getChangesGo (old_version.splitOn '\n') (new_version.splitOn '\n') 1

/-- `reverse_changes(changes)` (version_manager.py lines 713-716): swap
insert and delete and reverse the list. -/
def reverse_changes (changes : List Change) : List Change :=
  (changes.map fun c => if c.2.1 = 'D' then (c.1, 'I', c.2.2) else (c.1, 'D', c.2.2)).reverse

/-! ### Round-trip proof for the diff/patch engine (C1) -/

theorem take_len_append {α : Type} (pre rest : List α) :
    (pre ++ rest).take pre.length = pre := by
  induction pre with
  | nil => simp
  | cons a l ih => simp [ih]

theorem drop_len_append {α : Type} (pre rest : List α) :
    (pre ++ rest).drop pre.length = rest := by
  induction pre with
  | nil => simp
  | cons a l ih => simp [ih]

theorem drop_len_succ_append {α : Type} (pre : List α) (x : α) (rest : List α) :
    (pre ++ x :: rest).drop (pre.length + 1) = rest := by
  induction pre with
  | nil => simp
  | cons a l ih => simp only [List.cons_append, List.length_cons, List.drop_succ_cons]; exact ih

theorem pyIdxIns_at {α : Type} (pre rest : List α) :
    pyIdxIns ((pre ++ rest).length : Int) (pre.length : Int) = (pre.length : Int) := by
  unfold pyIdxIns
  rw [if_neg (by omega)]
  rw [min_eq_left (by simp only [List.length_append]; push_cast; omega)]

theorem pyInsert_at {α : Type} (pre rest : List α) (x : α) :
    pyInsert (pre ++ rest) (pre.length : Int) x = pre ++ x :: rest := by
  simp only [pyInsert, pyIdxIns_at, Int.toNat_natCast, take_len_append, drop_len_append]

theorem pyIdx_at {α : Type} (pre rest : List α) :
    pyIdx ((pre ++ rest).length : Int) (pre.length : Int) = (pre.length : Int) := by
  unfold pyIdx
  rw [if_neg (by omega)]

theorem pyDelete_at {α : Type} (pre : List α) (x : α) (rest : List α) :
    pyDelete (pre ++ x :: rest) (pre.length : Int) = some (pre ++ rest) := by
  have hc : 0 ≤ (pre.length : Int) ∧ (pre.length : Int) < ((pre ++ x :: rest).length : Int) := by
    constructor
    · omega
    · simp only [List.length_append, List.length_cons]
      push_cast; omega
  simp only [pyDelete, pyIdx_at]
  rw [if_pos hc, Int.toNat_natCast, take_len_append, drop_len_succ_append]

theorem applyChangesL_trailingIns (new : List Str) :
    ∀ pre : List Str,
      applyChangesL pre (trailingIns new ((pre.length : Int) + 1)) = some (pre ++ new) := by
  induction new with
  | nil => intro pre; simp [trailingIns, applyChangesL]
  | cons n ns ih =>
    intro pre
    have h1 : ((pre.length : Int) + 1) - 1 = (pre.length : Int) := by omega
    have h2 : pyInsert pre (pre.length : Int) n = pre ++ [n] := by
      have h := pyInsert_at pre [] n
      rw [List.append_nil] at h
      exact h
    simp only [trailingIns, applyChangesL, if_pos rfl, h1, h2]
    have h3 : ((pre.length : Int) + 1) + 1 = (((pre ++ [n]).length : Int) + 1) := by
      simp only [List.length_append, List.length_cons, List.length_nil]
      push_cast; omega
    rw [h3, ih (pre ++ [n])]
    simp

theorem applyChangesL_trailingDel (old : List Str) :
    ∀ pre : List Str,
      applyChangesL (pre ++ old) (old.map fun l => (((pre.length : Int) + 1), 'D', l)) =
        some pre := by
  induction old with
  | nil => intro pre; simp [applyChangesL]
  | cons o os ih =>
    intro pre
    have h1 : ((pre.length : Int) + 1) - 1 = (pre.length : Int) := by omega
    simp only [List.map_cons, applyChangesL, if_neg (by decide : ¬('D' = 'I')), if_pos rfl,
      h1, pyDelete_at pre o os, Option.bind_some]
    exact ih pre

theorem applyChangesL_getChangesGo :
    ∀ (k : Nat) (old new pre : List Str), old.length + new.length ≤ k →
      applyChangesL (pre ++ old) (getChangesGo old new ((pre.length : Int) + 1)) =
        some (pre ++ new) := by
  intro k
  induction k with
  | zero =>
    intro old new pre h
    have ho : old = [] := by
      cases old with
      | nil => rfl
      | cons a l => simp at h
    have hn : new = [] := by
      cases new with
      | nil => rfl
      | cons a l => simp at h
    subst ho; subst hn
    simp [getChangesGo, trailingIns, applyChangesL]
  | succ k ih =>
    intro old new pre h
    match old, new with
    | [], news =>
      simpa [getChangesGo] using applyChangesL_trailingIns news pre
    | o :: olds, [] =>
      simpa [getChangesGo] using applyChangesL_trailingDel (o :: olds) pre
    | o :: olds, n :: news =>
      rw [getChangesGo]
      by_cases heq : o = n
      · rw [if_pos heq]
        have hpre : ((pre.length : Int) + 1) + 1 = (((pre ++ [o]).length : Int) + 1) := by
          simp only [List.length_append, List.length_cons, List.length_nil]
          push_cast; omega
        have hm : olds.length + news.length ≤ k := by
          simp only [List.length_cons] at h; omega
        have happ : pre ++ o :: olds = (pre ++ [o]) ++ olds := by simp
        rw [hpre, happ, ih olds news (pre ++ [o]) hm]
        simp [heq]
      · rw [if_neg heq]
        by_cases hmem : o ∈ news
        · rw [if_pos hmem]
          have h1 : ((pre.length : Int) + 1) - 1 = (pre.length : Int) := by omega
          have h2 : pyInsert (pre ++ o :: olds) (pre.length : Int) n =
              (pre ++ [n]) ++ o :: olds := by
            rw [pyInsert_at pre (o :: olds) n]; simp
          simp only [applyChangesL, if_pos rfl, h1, h2]
          have hpre : ((pre.length : Int) + 1) + 1 = (((pre ++ [n]).length : Int) + 1) := by
            simp only [List.length_append, List.length_cons, List.length_nil]
            push_cast; omega
          have hm : (o :: olds).length + news.length ≤ k := by
            simp only [List.length_cons] at h ⊢; omega
          rw [hpre, ih (o :: olds) news (pre ++ [n]) hm]
          simp
        · rw [if_neg hmem]
          have h1 : ((pre.length : Int) + 1) - 1 = (pre.length : Int) := by omega
          simp only [applyChangesL, if_neg (by decide : ¬('D' = 'I')), if_pos rfl, h1,
            pyDelete_at pre o olds, Option.bind_some]
          have hm : olds.length + (n :: news).length ≤ k := by
            simp only [List.length_cons] at h ⊢; omega
          exact ih olds (n :: news) pre hm

/-- Claim C1: diff/patch round-trip. For every pair of strings `old` and
`new`, `apply_changes(old, get_changes(old, new))` succeeds and returns
exactly `new`. -/
theorem diff_patch_round_trip (old new : Str) :
    apply_changes old (get_changes old new) = some new := by
  unfold apply_changes get_changes
  have h0 : (1 : Int) = ((([] : List Str).length : Int) + 1) := by simp
  rw [h0]
  have := applyChangesL_getChangesGo
    ((old.splitOn '\n').length + (new.splitOn '\n').length)
    (old.splitOn '\n') (new.splitOn '\n') [] (le_refl _)
  rw [List.nil_append] at this
  rw [this]
  simp [List.intercalate_splitOn]

/-! ### Scenario S4: the three updates of claim C5 -/

/-- The three update change lists of scenario S4 applied in order to an
empty file. `content.split("\n")` on the empty string yields `[""]`, so
each applied list keeps the trailing empty line at the end. -/
def scenarioS4 : Option Str :=
  (apply_changes [] [((1 : Int), 'I', "a".data)]).bind fun f1 =>
    (apply_changes f1 [((1 : Int), 'I', "b".data)]).bind fun f2 =>
      apply_changes f2 [((2 : Int), 'I', "c".data)]

/-- Claim C5, counterexample: applying the three S4 change lists to the
empty file does not produce the content `"b\na\nc"` stated by the claim. -/
theorem scenarioS4_not_claimed : scenarioS4 ≠ some "b\na\nc".data := by decide

/-- Claim C5, amended: applying the three S4 change lists in order to an
empty file yields `"b\nc\na\n"` (the c line lands between b and a, and
the empty line produced by splitting the empty start file stays at the
end). -/
theorem scenarioS4_result : scenarioS4 = some "b\nc\na\n".data := by decide

/-! ### Path classification inside `jump_versions` (C4) -/

/-- The `mono_inc` lambda of `jump_versions` (version_manager.py line
606): all adjacent pairs strictly increase. -/
def monoInc (l : List Int) : Bool := (l.zip l.tail).all fun p => p.1 < p.2

/-- The `mono_dec` lambda of `jump_versions` (version_manager.py line
607): all adjacent pairs strictly decrease. -/
def monoDec (l : List Int) : Bool := (l.zip l.tail).all fun p => p.1 > p.2

/-- `_takewhile(predicate, lst)` (version_manager.py lines 676-684): keep
taking elements while the predicate holds of the remaining suffix. -/
def takewhileSfx (p : List Int → Bool) : List Int → List Int
  | [] => []
  | x :: xs => if p (x :: xs) then x :: takewhileSfx p xs else []

/-- The path-processing part of `jump_versions` (version_manager.py lines
601-648), with the per-version change-list lookup
`bytes_to_changes(get_payload(access_dict[step].feed, step - minv + 3))`
abstracted as the function `g`. -/
def jumpPathChanges (g : Int → List Change) (path : List Int) : List Change :=
  if monoInc path then ((path.drop 1).map g).flatten
  else if monoDec path then (path.dropLast.map fun v => reverse_changes (g v)).flatten
  else
    ((takewhileSfx (fun l => ! monoInc l) path).map fun v => reverse_changes (g v)).flatten
      ++ ((path.drop ((takewhileSfx (fun l => ! monoInc l) path).length + 1)).map g).flatten

theorem monoInc_cons2 (x y : Int) (l : List Int) :
    monoInc (x :: y :: l) = (decide (x < y) && monoInc (y :: l)) := by
  simp [monoInc]

theorem monoDec_cons2 (x y : Int) (l : List Int) :
    monoDec (x :: y :: l) = (decide (x > y) && monoDec (y :: l)) := by
  simp [monoDec]

theorem monoDec_tail (x : Int) (l : List Int) (h : monoDec (x :: l) = true) :
    monoDec l = true := by
  cases l with
  | nil => rfl
  | cons y ys =>
    rw [monoDec_cons2] at h
    simp only [Bool.and_eq_true] at h
    exact h.2

theorem monoDec_head (x y : Int) (l : List Int) (h : monoDec (x :: y :: l) = true) :
    x > y := by
  rw [monoDec_cons2] at h
  simp only [Bool.and_eq_true, decide_eq_true_eq] at h
  exact h.1

theorem monoInc_head (x y : Int) (l : List Int) (h : monoInc (x :: y :: l) = true) :
    x < y := by
  rw [monoInc_cons2] at h
  simp only [Bool.and_eq_true, decide_eq_true_eq] at h
  exact h.1

/-- An appended pair inside a strictly decreasing list decreases. -/
theorem monoDec_append_pair (l : List Int) (x y : Int) (r : List Int) :
    monoDec (l ++ x :: y :: r) = true → x > y := by
  induction l with
  | nil => intro h; exact monoDec_head x y r h
  | cons a l ih =>
    intro h
    exact ih (monoDec_tail a _ h)

/-- On a path that strictly decreases through `decs ++ [m]` and then
strictly increases through `m :: incs`, `_takewhile (not mono_inc)`
returns exactly the strictly decreasing prefix before the minimum. -/
theorem takewhileSfx_mixed (m : Int) (incs : List Int)
    (hinc : monoInc (m :: incs) = true) :
    ∀ decs : List Int, monoDec (decs ++ [m]) = true →
      takewhileSfx (fun l => ! monoInc l) (decs ++ m :: incs) = decs := by
  intro decs
  induction decs with
  | nil =>
    intro _
    simp only [List.nil_append, takewhileSfx, hinc, Bool.not_true]
    rfl
  | cons d ds ih =>
    intro hdec
    have hstep : monoInc (d :: (ds ++ m :: incs)) = false := by
      cases ds with
      | nil =>
        have hdm : d > m := monoDec_head d m [] hdec
        simp only [List.nil_append]
        rw [monoInc_cons2]
        have : ¬(d < m) := by omega
        simp [this]
      | cons a as =>
        have hda : d > a := monoDec_head d a (as ++ [m]) hdec
        simp only [List.cons_append]
        rw [monoInc_cons2]
        have : ¬(d < a) := by omega
        simp [this]
    have hrec := ih (monoDec_tail d _ hdec)
    show takewhileSfx (fun l => ! monoInc l) (d :: (ds ++ m :: incs)) = d :: ds
    rw [takewhileSfx, hstep]
    simp only [Bool.not_false, if_pos]
    rw [hrec]

/-- Claim C4: mixed-path version jump. For every path that strictly
decreases through `decs` to the minimum `m` and then strictly increases
through `incs`, the `jump_versions` path processing yields the reverted
change lists of the decreasing prefix in path order, followed by the
plain change lists of the increasing suffix, with the crossover minimum
`m` itself skipped. -/
theorem jump_versions_mixed (g : Int → List Change) (decs incs : List Int) (m : Int)
    (hd : decs ≠ []) (hi : incs ≠ [])
    (hdec : monoDec (decs ++ [m]) = true) (hinc : monoInc (m :: incs) = true) :
    jumpPathChanges g (decs ++ m :: incs) =
      (decs.map fun v => reverse_changes (g v)).flatten ++ (incs.map g).flatten := by
  obtain ⟨d, ds, rfl⟩ : ∃ d ds, decs = d :: ds := by
    cases decs with
    | nil => exact absurd rfl hd
    | cons d ds => exact ⟨d, ds, rfl⟩
  obtain ⟨i0, is, rfl⟩ : ∃ i0 is, incs = i0 :: is := by
    cases incs with
    | nil => exact absurd rfl hi
    | cons i0 is => exact ⟨i0, is, rfl⟩
  have hnotinc : monoInc ((d :: ds) ++ m :: i0 :: is) = false := by
    cases ds with
    | nil =>
      have hdm : d > m := monoDec_head d m [] hdec
      simp only [List.cons_append, List.nil_append]
      rw [monoInc_cons2]
      have : ¬(d < m) := by omega
      simp [this]
    | cons a as =>
      have hda : d > a := monoDec_head d a (as ++ [m]) hdec
      simp only [List.cons_append]
      rw [monoInc_cons2]
      have : ¬(d < a) := by omega
      simp [this]
  have hnotdec : monoDec ((d :: ds) ++ m :: i0 :: is) = false := by
    have hmi : m < i0 := monoInc_head m i0 is hinc
    by_contra hcon
    have htrue : monoDec ((d :: ds) ++ m :: i0 :: is) = true := by
      cases hb : monoDec ((d :: ds) ++ m :: i0 :: is) with
      | false => exact absurd hb hcon
      | true => rfl
    have := monoDec_append_pair (d :: ds) m i0 is htrue
    omega
  have htw : takewhileSfx (fun l => ! monoInc l) ((d :: ds) ++ m :: i0 :: is) = d :: ds :=
    takewhileSfx_mixed m (i0 :: is) hinc (d :: ds) hdec
  have hdrop : ((d :: ds) ++ m :: i0 :: is).drop ((d :: ds).length + 1) = i0 :: is := by
    have : (d :: ds) ++ m :: i0 :: is = ((d :: ds) ++ [m]) ++ i0 :: is := by simp
    rw [this]
    have hlen : (d :: ds).length + 1 = ((d :: ds) ++ [m]).length := by simp
    rw [hlen, drop_len_append]
  unfold jumpPathChanges
  rw [hnotinc, hnotdec]
  simp only [Bool.false_eq_true, if_false, htw, hdrop]

/-- A concrete lookup table for the change lists used in the C4 witness. -/
def gW : Int → List Change := fun v => [(v, 'I', ['u'])]

/-- Witness for C4 at the path `3, 2, 1, 4` of scenario S5. -/
theorem jump_versions_mixed_witness :
    ([3, 2] : List Int) ≠ [] ∧ ([4] : List Int) ≠ [] ∧
      monoDec [3, 2, 1] = true ∧ monoInc [1, 4] = true ∧
      jumpPathChanges gW [3, 2, 1, 4] =
        (([3, 2] : List Int).map fun v => reverse_changes (gW v)).flatten
          ++ (([4] : List Int).map gW).flatten :=
  ⟨by decide, by decide, by decide, by decide,
    jump_versions_mixed gW [3, 2] [4] 1 (by decide) (by decide) (by decide) (by decide)⟩

/-! ### Symbolic crypto

sha256 and the ed25519 signature are modelled by an executable keyed
digest.  The theorems below only evaluate these functions at concrete
inputs; none of them assumes collision resistance or unforgeability. -/

/-- An executable stand-in for a `w`-byte digest. -/
def fakeDigest (w : Nat) (x : List Nat) : List Nat :=
  (List.range w).map fun i => x.foldl (fun a b => (a * 131 + b + 7) % 256) i

/-- `hashlib.sha256(x).digest()`: a 32-byte digest (symbolic model). -/
def sha256d (x : List Nat) : List Nat := fakeDigest 32 x

/-- `SigningKey(key).sign(msg)`: a 64-byte signature (symbolic model;
the key pair is modelled by using the same bytes on both sides). -/
def edSign (key msg : List Nat) : List Nat := fakeDigest 64 (key ++ msg)

/-- `VerifyingKey(fid).verify(sig, msg)` (symbolic model): the signature
matches the keyed digest of the message under the feed id. -/
def edVerify (fid sig msg : List Nat) : Bool := sig == edSign fid msg

/-! ### The packet codec of `ussb/packet.py`

`optimize/tinyssb/feed.py` imports the same functions from its own
`.packet` module, which is not under `src/`; `ussb/ussb/packet.py` is
the variant of that codec present in the sources and is used for both. -/

/-- The protocol prefix `b"tiny-v02"` of `ussb/packet.py`. -/
def pktPrefixV02 : List Nat := [116, 105, 110, 121, 45, 118, 48, 50]

/-- Packet type tags (packet.py lines 25-36). -/
def PLAIN48 : Nat := 0

def CHAIN20 : Nat := 1

def ISCHILD : Nat := 2

def MKCHILD : Nat := 4

def CONTDAS : Nat := 5

def UPDFILE : Nat := 7

def APPLYUP : Nat := 8

/-- A PACKET struct: the 128-byte wire format plus the virtual fields
(packet.py lines 43-58). -/
structure Pkt where
  wire : List Nat
  fid : List Nat
  seq : List Nat
  prev_mid : List Nat
  mid : List Nat
  deriving DecidableEq, Repr

/-- `new_packet(fid, seq, prev_mid, payload, pkt_type, key)` (packet.py
lines 69-126): compute the block name, the dmx, the signature over the
120-byte expanded block, the 128-byte wire and the message id. -/
def new_packet (fid seq prev_mid payload : List Nat) (pkt_type : Nat) (key : List Nat) :
    Pkt :=
  let block_name := pktPrefixV02 ++ fid ++ seq ++ prev_mid
  let dmx := (sha256d block_name).take 7
  let expanded := block_name ++ dmx ++ [pkt_type] ++ payload
  let signature := edSign key expanded
  let full := expanded ++ signature
  { wire := pktPrefixV02 ++ dmx ++ [pkt_type] ++ payload ++ signature
    fid := fid
    seq := seq
    prev_mid := prev_mid
    mid := (sha256d full).take 20 }

/-- `pkt_from_wire(fid, seq, prev_mid, pkt_wire)` (packet.py lines
129-182): rebuild the expanded block from the 128-byte wire (reserved
bytes and dmx are taken from the wire itself), verify the signature with
the fid as public key, and return the packet with its mid; `none` models
the verification failure. -/
def pkt_from_wire (fid seq prev_mid pkt_wire : List Nat) : Option Pkt :=
  let dmx := sub pkt_wire 8 15
  let pkt_type := sub pkt_wire 15 16
  let payload := sub pkt_wire 16 64
  let signature := sub pkt_wire 64 128
  let expanded := sub pkt_wire 0 8 ++ fid ++ seq ++ prev_mid ++ dmx ++ pkt_type ++ payload
  if edVerify fid signature expanded then
    some { wire := pkt_wire
           fid := fid
           seq := seq
           prev_mid := prev_mid
           mid := (sha256d (expanded ++ signature)).take 20 }
  else none

/-! ### `create_chain` of `ussb/packet.py` (lines 309-372) -/

/-- One iteration chunk of the blob loop of `create_chain`: blobs are
128-byte records `reserved(8) || payload(100) || pointer(20)`; the
pointer of the next-created blob is the sha256 of bytes 8..128 of the
current one.  The `while front >= 0` loop walks `front`/`back` down in
steps of 100; assigning a slice whose length is not exactly 100 to the
fixed-size `blob.payload` array is a uctypes error, modelled by `none`.
The fuel argument bounds the loop; the caller passes one more than the
largest possible number of iterations, so it never runs out. -/
def chainLoop (blob_content : List Nat) :
    Nat → Int → Int → List Nat → List (List Nat) → Option (List (List Nat) × List Nat)
  | 0, _, _, _, _ => none
  | fuel + 1, front, back, ptr, acc =>
    if front < 0 then some (acc, ptr)
    else
      let chunk := sub blob_content front.toNat back.toNat
      if chunk.length = 100 then
        let blob := List.replicate 8 0 ++ chunk ++ ptr
        chainLoop blob_content fuel (front - 100) (back - 100)
          ((sha256d (sub blob 8 128)).take 20) (acc ++ [blob])
      else none

/-- `create_chain(fid, seq, prev_mid, content, key)` (packet.py lines
309-372).  Contents of at most 27 bytes fit into the packet itself; the
48-byte payload is `var_int || first bytes || pointer(20)`.  Longer
contents are split into `ceil((len - 28) / 100)` blobs of 100 bytes
(`blob_content` is extended by Python slice assignment when the computed
count is too small). -/
def create_chain (fid seq prev_mid content key : List Nat) :
    Option (Pkt × List (List Nat)) :=
  if content.length ≤ 27 then
    let payload := to_var_int content.length ++ content
      ++ List.replicate (48 - 1 - content.length) 0
    some (new_packet fid seq prev_mid payload CHAIN20 key, [])
  else
    let var_int := to_var_int content.length
    let vil := var_int.length
    let expected_num_blobs := (content.length - 28 + 99) / 100
    let payload28 := var_int ++ content.take (28 - vil)
    let rest_len := content.length - (28 - vil)
    let blob_content := content.drop (28 - vil)
      ++ List.replicate (expected_num_blobs * 100 - rest_len) 0
    let back : Int := blob_content.length
    let front : Int := max (back - 100) 0
    (chainLoop blob_content (blob_content.length / 100 + 2) front back
        (List.replicate 20 0) []).map
      fun r => (new_packet fid seq prev_mid (payload28 ++ r.2) CHAIN20 key, r.1.reverse)

/-! ### The feed store of `optimize/tinyssb/feed.py` -/

/-- The FEED header struct (optimize/tinyssb/feed.py lines 44-53). -/
structure OptFeed where
  fid : List Nat
  parent_fid : List Nat
  parent_seq : Nat
  anchor_seq : Nat
  anchor_mid : List Nat
  front_seq : Nat
  front_mid : List Nat
  deriving DecidableEq, Repr

/-- An optimize-variant feed together with its on-disk log file, a list
of 128-byte wire packets. -/
structure OptFeedLog where
  feed : OptFeed
  log : List (List Nat)
  deriving DecidableEq, Repr

/-- `append_packet(feed, pkt)` (optimize/tinyssb/feed.py lines 223-234):
write the 128-byte wire at the end of the log file, then advance
`front_mid`/`front_seq` in the header.  The source carries the comment
`TODO: check if feed has ended?`: there is no ended check. -/
def opt_append_packet (fl : OptFeedLog) (pkt : Pkt) : OptFeedLog :=
  { feed := { fl.feed with front_mid := pkt.mid, front_seq := fl.feed.front_seq + 1 }
    log := fl.log ++ [pkt.wire] }

/-- `append_bytes(feed, payload, key)` (optimize/tinyssb/feed.py lines
237-259): zero-pad the payload to 48 bytes and append a plain48 packet
signed under sequence number `front_seq + 1`. -/
def opt_append_bytes (fl : OptFeedLog) (payload key : List Nat) : OptFeedLog :=
  opt_append_packet fl
    (new_packet fl.feed.fid (toBytesBE 4 (fl.feed.front_seq + 1)) fl.feed.front_mid
      (payload ++ List.replicate (48 - payload.length) 0) PLAIN48 key)

/-- The shared blob directory, keyed by the 20-byte blob pointer (the
hex file name `_blobs/hh/...` is an injective encoding of the pointer). -/
abbrev BlobStore := List (List Nat × List Nat)

/-- The blob-file writing loop of `append_blob` (optimize/tinyssb/feed.py
lines 267-284): the first file name is the packet payload's pointer, each
further one the pointer of the previously written blob; returns the store
and the final pointer (asserted to be the null pointer by the source). -/
def writeBlobs (store : BlobStore) (ptr : List Nat) : List (List Nat) → BlobStore × List Nat
  | [] => (store, ptr)
  | b :: bs => writeBlobs (store ++ [(ptr, b)]) (sub b 108 128) bs

/-- `append_blob(feed, payload, key)` (optimize/tinyssb/feed.py lines
262-288): create the chain — the source passes `feed.front_seq`, not
`front_seq + 1`, as the sequence number — write the blob files and
append the chain20 packet.  `none` models a failed assertion or chain
construction error. -/
def opt_append_blob (fl : OptFeedLog) (store : BlobStore) (payload key : List Nat) :
    Option (OptFeedLog × BlobStore) :=
  (create_chain fl.feed.fid (toBytesBE 4 fl.feed.front_seq) fl.feed.front_mid
      payload key).bind fun pr =>
    let w := writeBlobs store (sub pr.1.wire 44 64) pr.2
    if w.2 = List.replicate 20 0 then some (opt_append_packet fl pr.1, w.1) else none

/-- `verify_and_append_bytes(feed, wpkt)` (optimize/tinyssb/feed.py lines
291-300): the source verifies under `feed.front_seq`, not
`front_seq + 1`; on failure it prints and returns with the feed
unchanged. -/
def opt_verify_and_append_bytes (fl : OptFeedLog) (wpkt : List Nat) : OptFeedLog :=
  match pkt_from_wire fl.feed.fid (toBytesBE 4 fl.feed.front_seq) fl.feed.front_mid wpkt with
  | none => fl
  | some pkt => opt_append_packet fl pkt

/-! ### The deprecated variant `deprecated/tinyssb_update/tinyssb` -/

/-- The protocol prefix `b"tiny-v01"` of the deprecated variant. -/
def pktPrefixV01 : List Nat := [116, 105, 110, 121, 45, 118, 48, 49]

/-- A deprecated-variant signed packet: the 120-byte wire
`dmx || type || payload || signature` and the message id. -/
structure DepPkt where
  wire : List Nat
  mid : List Nat
  deriving DecidableEq, Repr

/-- `Packet(fid, seq, prev_mid, payload, pkt_type, skey)` of
deprecated/tinyssb_update/tinyssb/packet.py (lines 61-155): pad the
payload to 48 bytes, compute dmx, signature, mid and wire. -/
def dep_mk_packet (fid seq prev_mid payload pkt_type skey : List Nat) : DepPkt :=
  let payload48 := payload ++ List.replicate (48 - payload.length) 0
  let block_name := pktPrefixV01 ++ fid ++ seq ++ prev_mid
  let dmx := (sha256d block_name).take 7
  let expanded := block_name ++ dmx ++ pkt_type ++ payload48
  let signature := edSign skey expanded
  { wire := dmx ++ pkt_type ++ payload48 ++ signature
    mid := (sha256d (expanded ++ signature)).take 20 }

/-- `pkt_from_bytes(fid, seq, prev_mid, pkt_wire)` (deprecated packet.py
lines 177-204): rebuild the packet — the dmx is recomputed from the
block name — and verify the signature with the fid as public key. -/
def dep_pkt_from_bytes (fid seq prev_mid pkt_wire : List Nat) : Option DepPkt :=
  let pkt_type := sub pkt_wire 7 8
  let payload := sub pkt_wire 8 56
  let signature := sub pkt_wire 56 120
  let block_name := pktPrefixV01 ++ fid ++ seq ++ prev_mid
  let dmx := (sha256d block_name).take 7
  let expanded := block_name ++ dmx ++ pkt_type ++ payload
  if edVerify fid signature expanded then
    some { wire := pkt_wire, mid := (sha256d (expanded ++ signature)).take 20 }
  else none

/-- A deprecated-variant feed: header fields of the `.log` file plus the
list of 128-byte packet records that follow the header. -/
structure DepFeed where
  fid : List Nat
  anchor_seq : Nat
  front_seq : Nat
  front_mid : List Nat
  log : List (List Nat)
  deriving DecidableEq, Repr

/-- `Feed.get_wire(seq)` (deprecated feed.py lines 134-153): negative
indices count from the front, out-of-range indices raise `IndexError`
(`none`); the 8 reserved bytes of the stored record are cut off. -/
def dep_get_wire (f : DepFeed) (seq : Int) : Option (List Nat) :=
  let s : Int := if seq < 0 then (f.front_seq : Int) + seq + 1 else seq
  if s > (f.front_seq : Int) ∨ s ≤ (f.anchor_seq : Int) then none
  else (f.log[(s - (f.anchor_seq : Int) - 1).toNat]?).map fun r => sub r 8 128

/-- The valid packet type bytes of the deprecated variant
(`PacketType.types`, deprecated packet.py lines 27-37); `applyup` is
`0x09` there. -/
def depTypes : List Nat := [0, 1, 2, 3, 4, 5, 6, 7, 9]

/-- `Feed.get_type(seq)` (deprecated feed.py lines 155-166). -/
def dep_get_type (f : DepFeed) (seq : Int) : Option (List Nat) :=
  (dep_get_wire f seq).bind fun w =>
    match sub w 7 8 with
    | [b] => if b ∈ depTypes then some [b] else none
    | _ => none

/-- `Feed.has_ended()` (deprecated feed.py lines 354-360). -/
def dep_has_ended (f : DepFeed) : Bool :=
  if f.front_seq < 1 then false else dep_get_type f (-1) == some [CONTDAS]

/-- `Feed.append_pkt(pkt)` (deprecated feed.py lines 216-241): refuse
with `False` when the feed has ended; otherwise append the 128-byte
record (8 reserved zero bytes plus the wire) and advance the header. -/
def dep_append_pkt (f : DepFeed) (pkt : DepPkt) : Bool × DepFeed :=
  if dep_has_ended f then (false, f)
  else
    (true, { f with log := f.log ++ [List.replicate 8 0 ++ pkt.wire]
                    front_seq := f.front_seq + 1
                    front_mid := pkt.mid })

/-- `Feed.append_bytes(payload)` (deprecated feed.py lines 243-262):
build a plain48 packet for sequence number `front_seq + 1` and append. -/
def dep_append_bytes (f : DepFeed) (payload skey : List Nat) : Bool × DepFeed :=
  dep_append_pkt f
    (dep_mk_packet f.fid (toBytesBE 4 (f.front_seq + 1)) f.front_mid payload [PLAIN48] skey)

/-- `Feed.verify_and_append_bytes(pkt_wire)` (deprecated feed.py lines
264-279): validate the candidate wire under
`(fid, front_seq + 1, front_mid)`; on failure return `False` without
mutating, on success append. -/
def dep_verify_and_append_bytes (f : DepFeed) (pkt_wire : List Nat) : Bool × DepFeed :=
  match dep_pkt_from_bytes f.fid (toBytesBE 4 (f.front_seq + 1)) f.front_mid pkt_wire with
  | none => (false, f)
  | some pkt => dep_append_pkt f pkt

/-! ### Claims C3, C6, C7 on the append/verify operations -/

/-- A concrete optimize-variant feed at `front_seq = 1` used for C3. -/
def c3Feed : OptFeedLog :=
  { feed := { fid := List.replicate 32 5, parent_fid := List.replicate 32 0,
              parent_seq := 0, anchor_seq := 0, anchor_mid := List.replicate 20 5,
              front_seq := 1, front_mid := List.replicate 20 9 }
    log := [List.replicate 128 0] }

set_option maxRecDepth 200000 in
/-- Claim C3 (code bug witness): on the optimize variant, `append_bytes`
signs the new front packet under sequence number `front_seq + 1`, so the
appended packet verifies under `(fid, front_seq + 1, front_mid)` — but
`append_blob` passes `feed.front_seq` instead of `front_seq + 1` to
`create_chain`, so the chain20 packet it appends at sequence number
`front_seq + 1` does **not** verify there, breaking the claimed feed
integrity invariant. -/
theorem append_blob_breaks_integrity :
    (((opt_append_bytes c3Feed [1, 2, 3] (List.replicate 32 5)).log.getLast?).map
        (fun w => (pkt_from_wire (List.replicate 32 5) (toBytesBE 4 2)
          (List.replicate 20 9) w).isSome) = some true)
    ∧ ((opt_append_blob c3Feed [] [1, 2, 3] (List.replicate 32 5)).map
        (fun r => ((r.1.log.getLast?).map fun w =>
          (pkt_from_wire (List.replicate 32 5) (toBytesBE 4 2)
            (List.replicate 20 9) w).isSome, r.1.feed.front_seq)) =
        some (some false, 2)) := by
  constructor
  · decide
  · decide

/-- A deprecated-variant feed whose front packet has type `contdas`. -/
def c6DepFeed : DepFeed :=
  { fid := List.replicate 32 3, anchor_seq := 0, front_seq := 1,
    front_mid := List.replicate 20 1,
    log := [List.replicate 15 0 ++ [CONTDAS] ++ List.replicate 112 0] }

/-- An optimize-variant feed whose front packet has type `contdas`. -/
def c6OptFeed : OptFeedLog :=
  { feed := { fid := List.replicate 32 6, parent_fid := List.replicate 32 0,
              parent_seq := 0, anchor_seq := 0, anchor_mid := List.replicate 20 6,
              front_seq := 1, front_mid := List.replicate 20 2 }
    log := [List.replicate 15 0 ++ [CONTDAS] ++ List.replicate 112 0] }

set_option maxRecDepth 200000 in
/-- Claim C6 (code bug witness): the deprecated variant refuses every
append to an ended feed (`append_pkt` and `append_bytes` return `False`
and leave the feed unchanged), but the optimize variant's
`append_packet` — whose body carries the comment
`TODO: check if feed has ended?` — happily appends to a feed whose front
packet is `contdas` and advances `front_seq`, so the ended state is not
sticky there. -/
theorem ended_feed_not_sticky_in_optimize :
    (dep_has_ended c6DepFeed = true)
    ∧ (dep_append_pkt c6DepFeed
        (dep_mk_packet (List.replicate 32 3) (toBytesBE 4 2) (List.replicate 20 1)
          (List.replicate 48 7) [PLAIN48] (List.replicate 32 3)) = (false, c6DepFeed))
    ∧ (dep_append_bytes c6DepFeed (List.replicate 48 7) (List.replicate 32 3) =
        (false, c6DepFeed))
    ∧ (sub (List.replicate 15 0 ++ [CONTDAS] ++ List.replicate 112 0) 15 16 = [CONTDAS])
    ∧ ((opt_append_packet c6OptFeed
          (new_packet (List.replicate 32 6) (toBytesBE 4 2) (List.replicate 20 2)
            (List.replicate 48 7) PLAIN48 (List.replicate 32 6))).feed.front_seq = 2)
    ∧ ((opt_append_packet c6OptFeed
          (new_packet (List.replicate 32 6) (toBytesBE 4 2) (List.replicate 20 2)
            (List.replicate 48 7) PLAIN48 (List.replicate 32 6))).log.length = 2) := by
  refine ⟨by decide, by decide, by decide, by decide, by decide, by decide⟩

/-- A concrete optimize-variant feed at `front_seq = 1` used for C7. -/
def c7OptFeed : OptFeedLog :=
  { feed := { fid := List.replicate 32 4, parent_fid := List.replicate 32 0,
              parent_seq := 0, anchor_seq := 0, anchor_mid := List.replicate 20 4,
              front_seq := 1, front_mid := List.replicate 20 8 }
    log := [List.replicate 128 0] }

/-- A concrete deprecated-variant feed at `front_seq = 1` used for C7. -/
def c7DepFeed : DepFeed :=
  { fid := List.replicate 32 2, anchor_seq := 0, front_seq := 1,
    front_mid := List.replicate 20 5, log := [List.replicate 128 0] }

set_option maxRecDepth 200000 in
/-- Claim C7 (code bug witness): the deprecated
`Feed.verify_and_append_bytes` behaves as claimed — a packet signed for
`(fid, front_seq + 1, front_mid)` is accepted and appended, a garbage
wire is rejected with `False` and the feed is unchanged.  The optimize
variant however passes `feed.front_seq` instead of `front_seq + 1` to
`pkt_from_wire`, so the very packet that verifies under
`(fid, front_seq + 1, front_mid)` is rejected and the feed left
unchanged. -/
theorem verify_and_append_uses_wrong_seq_in_optimize :
    ((pkt_from_wire (List.replicate 32 4) (toBytesBE 4 2) (List.replicate 20 8)
        (new_packet (List.replicate 32 4) (toBytesBE 4 2) (List.replicate 20 8)
          (List.replicate 48 6) PLAIN48 (List.replicate 32 4)).wire).isSome = true)
    ∧ (opt_verify_and_append_bytes c7OptFeed
        (new_packet (List.replicate 32 4) (toBytesBE 4 2) (List.replicate 20 8)
          (List.replicate 48 6) PLAIN48 (List.replicate 32 4)).wire = c7OptFeed)
    ∧ ((dep_verify_and_append_bytes c7DepFeed
          (dep_mk_packet (List.replicate 32 2) (toBytesBE 4 2) (List.replicate 20 5)
            (List.replicate 48 6) [PLAIN48] (List.replicate 32 2)).wire).1 = true)
    ∧ ((dep_verify_and_append_bytes c7DepFeed
          (dep_mk_packet (List.replicate 32 2) (toBytesBE 4 2) (List.replicate 20 5)
            (List.replicate 48 6) [PLAIN48] (List.replicate 32 2)).wire).2.front_seq = 2)
    ∧ (dep_verify_and_append_bytes c7DepFeed (List.replicate 120 1) = (false, c7DepFeed)) := by
  refine ⟨by decide, by decide, by decide, by decide, by decide⟩

/-! ### Blob-chain reassembly (`get_payload`, optimize/tinyssb/feed.py
lines 174-214) and claim C2 -/

/-- `lookup` of a blob file in the shared blob directory. -/
def lookupStore (store : BlobStore) (ptr : List Nat) : Option (List Nat) :=
  (store.find? fun p => p.1 == ptr).map fun p => p.2

/-- The pointer-walking loop of `get_payload` (optimize/tinyssb/feed.py
lines 195-213): follow the chain until the null pointer; a non-final
blob contributes bytes 8..108, the final one bytes
`8 .. content_size - current_i + 8`.  The fuel bounds the walk (the
Python loop does not terminate on a cyclic store); a missing blob file
is the `IncompleteBlob` error, modelled by `none`. -/
def walkChain (store : BlobStore) : Nat → List Nat → Nat → List Nat → Option (List Nat)
  | 0, _, _, _ => none
  | fuel + 1, ptr, content_size, acc =>
    if ptr = List.replicate 20 0 then some acc
    else
      (lookupStore store ptr).bind fun blob =>
        let ptr2 := sub blob 108 128
        if ptr2 = List.replicate 20 0 then
          some (acc ++ sub blob 8 (content_size - acc.length + 8))
        else walkChain store fuel ptr2 content_size (acc ++ sub blob 8 108)

/-- The chain20 branch of `get_payload` (optimize/tinyssb/feed.py lines
184-214), applied to the 48-byte packet payload: read the varint length,
seed the result with `payload[num_bytes:-20]`, then walk the chain
starting at `payload[-20:]`. -/
def opt_get_payload_chain (payload : List Nat) (store : BlobStore) : Option (List Nat) :=
  let r := from_var_int payload
  if r.1 ≤ 27 then some (sub payload 1 (1 + r.1))
  else walkChain store (store.length + 1) (sub payload 28 48) r.1 (sub payload r.2 28)

set_option maxRecDepth 400000 in
/-- Claim C2 (code bug witness): for 128 bytes of content,
`create_chain` of `ussb/packet.py` computes
`expected_num_blobs = ceil((128 - 28)/100) = 1`, although the packet
holds only 27 content bytes and the remaining 101 bytes need two blobs.
The blob loop then emits a single blob covering bytes 28..127 of the
content, silently dropping content byte 27; reassembling the chain
yields the first 27 bytes, then bytes 28..127, then a stray zero — not
the original content. -/
theorem blob_chain_round_trip_fails_at_128 :
    (((create_chain (List.replicate 32 1) (toBytesBE 4 1) (List.replicate 20 1)
          (List.replicate 128 170) (List.replicate 32 1)).bind fun pr =>
        opt_get_payload_chain (sub pr.1.wire 16 64)
          (writeBlobs [] (sub pr.1.wire 44 64) pr.2).1) =
      some (List.replicate 27 170 ++ List.replicate 100 170 ++ [0]))
    ∧ (List.replicate 27 170 ++ List.replicate 100 170 ++ [0] : List Nat) ≠
        List.replicate 128 170 := by
  constructor
  · decide
  · decide

/-! ### The `updfile` packet (claim C8) -/

/-- The payload built by `create_upd_pkt` (ussb/packet.py lines 257-283):
`var_int(len(file_name)) || file_name || base version (4 bytes BE)`,
zero-padded to 48 bytes (the file name is at most 43 bytes, so the
varint is a single byte). -/
def create_upd_payload (file_name v_number : List Nat) : List Nat :=
  to_var_int file_name.length ++ file_name ++ v_number
    ++ List.replicate (48 - 5 - file_name.length) 0

/-- `get_upd_file_name(feed)` (optimize/tinyssb/feed.py lines 447-463)
applied to the 48-byte updfile payload: the file name, and the version
number decoded from **3** bytes (`wpkt[offset2 : offset2 + 3]`). -/
def opt_get_upd (payload : List Nat) : List Nat × Nat :=
  let r := from_var_int payload
  (sub payload r.2 (r.2 + r.1), natFromBytesBE (sub payload (r.2 + r.1) (r.2 + r.1 + 3)))

/-- `Feed.get_upd_version()` (deprecated feed.py lines 547-559) applied
to the 48-byte updfile payload: the version number decoded from 4 bytes
after the file name. -/
def dep_get_upd_version (payload : List Nat) : Nat :=
  let r := from_var_int payload
  natFromBytesBE (sub payload (r.1 + r.2) (r.1 + r.2 + 4))

/-- `Feed.get_upd_file_name()` (deprecated feed.py lines 533-545) applied
to the 48-byte updfile payload: `payload[num_bytes : length + 1]`. -/
def dep_get_upd_file_name (payload : List Nat) : List Nat :=
  let r := from_var_int payload
  sub payload r.2 (r.1 + 1)

/-- Claim C8 (code bug witness): the updfile packet created for the file
name `"f.txt"` and base version 1 stores the version as the 4 big-endian
bytes directly after the file name, and the deprecated reader recovers
`("f.txt", 1)` — but `get_upd_file_name` of the optimize variant decodes
only 3 bytes and returns version 0, so the round trip fails there. -/
theorem updfile_version_decoded_from_3_bytes :
    (opt_get_upd (create_upd_payload [102, 46, 116, 120, 116] (toBytesBE 4 1)) =
        ([102, 46, 116, 120, 116], 0))
    ∧ (dep_get_upd_file_name (create_upd_payload [102, 46, 116, 120, 116] (toBytesBE 4 1)) =
        [102, 46, 116, 120, 116])
    ∧ (dep_get_upd_version (create_upd_payload [102, 46, 116, 120, 116] (toBytesBE 4 1)) = 1)
    ∧ (0 : Nat) ≠ 1 := by
  refine ⟨by decide, by decide, by decide, by decide⟩

/-! ### The configuration snapshot of the version manager (claim C9) -/

/-- One hex digit (lower case), as `ubinascii.hexlify` produces it. -/
def hexDigit (n : Nat) : Nat := if n < 10 then 48 + n else 87 + n

/-- `hexlify(b)`: two lower-case hex characters per byte. -/
def hexlify (b : List Nat) : List Nat :=
  (b.map fun x => [hexDigit (x / 16), hexDigit (x % 16)]).flatten

/-- One hex digit decoded (lower-case letters and digits). -/
def unhexDigit (c : Nat) : Nat := if 97 ≤ c then c - 87 else c - 48

/-- `unhexlify(s)`: decode pairs of hex characters to bytes. -/
def unhexlify : List Nat → List Nat
  | a :: b :: rest => (16 * unhexDigit a + unhexDigit b) :: unhexlify rest
  | _ => []

theorem unhexDigit_hexDigit (d : Nat) (h : d < 16) : unhexDigit (hexDigit d) = d := by
  unfold hexDigit unhexDigit
  by_cases h10 : d < 10
  · rw [if_pos h10, if_neg (by omega)]
    omega
  · rw [if_neg h10, if_pos (by omega)]
    omega

theorem unhexlify_hexlify (b : List Nat) (h : ∀ x ∈ b, x < 256) :
    unhexlify (hexlify b) = b := by
  induction b with
  | nil => rfl
  | cons x rest ih =>
    have hx : x < 256 := h x (List.mem_cons_self x rest)
    have h1 : x / 16 < 16 := by omega
    have h2 : x % 16 < 16 := by omega
    simp only [hexlify, List.map_cons, List.flatten_cons, List.cons_append, List.nil_append]
    rw [unhexlify]
    rw [unhexDigit_hexDigit _ h1, unhexDigit_hexDigit _ h2]
    have hrec : unhexlify (hexlify rest) = rest :=
      ih fun y hy => h y (List.mem_cons_of_mem x hy)
    unfold hexlify at hrec
    rw [hrec]
    congr 1
    omega

/-- Association-list lookup, modelling a Python dictionary access. -/
def alookup {β : Type} (l : List (List Nat × β)) (k : List Nat) : Option β :=
  (l.find? fun p => p.1 == k).map fun p => p.2

/-- The in-memory state that `_save_config` snapshots
(version_manager.py lines 66-81): `vc_dict`, `apply_queue`, `apply_dict`
and the fid of the bound update feed. -/
structure VMCfgState where
  vc_dict : List (List Nat × (List Nat × List Nat))
  apply_queue : List (List Nat × Nat)
  apply_dict : List (List Nat × Nat)
  update_fid : List Nat
  deriving DecidableEq, Repr

/-- The JSON object written to `update_cfg.json` by `_save_config`,
modelled structurally: fids hex-encoded, `apply_dict` verbatim. -/
structure SavedCfg where
  vc_dict : List (List Nat × (List Nat × List Nat))
  apply_queue : List (List Nat × Nat)
  apply_dict : List (List Nat × Nat)
  update_fid : List Nat
  deriving DecidableEq, Repr

/-- `_save_config` (version_manager.py lines 66-81). -/
def save_config (s : VMCfgState) : SavedCfg :=
  { vc_dict := s.vc_dict.map fun p => (p.1, (hexlify p.2.1, hexlify p.2.2))
    apply_queue := s.apply_queue.map fun p => (hexlify p.1, p.2)
    apply_dict := s.apply_dict
    update_fid := hexlify s.update_fid }

/-- `get_feed(fid)` (optimize/tinyssb/feed.py lines 139-149; the
`ussb/feed.py` twin of this function is not under `src/`): read the
128-byte header file named by the hex fid and take the fid field at
bytes 12..44.  The header store is keyed by the hex file name. -/
def get_feed_fid (headers : List (List Nat × List Nat)) (fid : List Nat) :
    Option (List Nat) :=
  (alookup headers (hexlify fid)).map fun h => sub h 12 44

/-- `_load_config` (version_manager.py lines 83-115): decode the hex
fids back to bytes, restore the three dictionaries and rebind
`update_feed` via `get_feed`; `none` models a missing header file. -/
def load_config (headers : List (List Nat × List Nat)) (cfg : SavedCfg) :
    Option VMCfgState :=
  (get_feed_fid headers (unhexlify cfg.update_fid)).map fun fid =>
    { vc_dict := cfg.vc_dict.map fun p => (p.1, (unhexlify p.2.1, unhexlify p.2.2))
      apply_queue := cfg.apply_queue.map fun p => (unhexlify p.1, p.2)
      apply_dict := cfg.apply_dict
      update_fid := fid }

/-- Claim C9: config snapshot round-trip.  For every configured manager
state whose fids are byte strings and whose update feed header is on
disk (the header store maps the hex name of the update fid to a header
carrying that fid at bytes 12..44), `_load_config` after `_save_config`
restores `vc_dict`, `apply_queue` and `apply_dict` exactly and rebinds
the update feed to the same fid. -/
theorem config_round_trip (headers : List (List Nat × List Nat)) (s : VMCfgState)
    (hvc : ∀ p ∈ s.vc_dict, (∀ x ∈ p.2.1, x < 256) ∧ ∀ x ∈ p.2.2, x < 256)
    (hq : ∀ p ∈ s.apply_queue, ∀ x ∈ p.1, x < 256)
    (hu : ∀ x ∈ s.update_fid, x < 256)
    (hhead : ∃ h, alookup headers (hexlify s.update_fid) = some h ∧
      sub h 12 44 = s.update_fid) :
    load_config headers (save_config s) = some s := by
  obtain ⟨h, hl, hf⟩ := hhead
  unfold load_config save_config get_feed_fid
  rw [unhexlify_hexlify s.update_fid hu, hl]
  have hvc2 : (s.vc_dict.map fun p => (p.1, (hexlify p.2.1, hexlify p.2.2))).map
      (fun p => (p.1, (unhexlify p.2.1, unhexlify p.2.2))) = s.vc_dict := by
    rw [List.map_map]
    have : ∀ p ∈ s.vc_dict,
        ((fun p => (p.1, (unhexlify p.2.1, unhexlify p.2.2))) ∘
          fun p => (p.1, (hexlify p.2.1, hexlify p.2.2))) p = id p := by
      intro p hp
      simp only [Function.comp_apply, id]
      rw [unhexlify_hexlify _ (hvc p hp).1, unhexlify_hexlify _ (hvc p hp).2]
    rw [List.map_congr_left this, List.map_id]
  have hq2 : (s.apply_queue.map fun p => (hexlify p.1, p.2)).map
      (fun p => (unhexlify p.1, p.2)) = s.apply_queue := by
    rw [List.map_map]
    have : ∀ p ∈ s.apply_queue,
        ((fun p => (unhexlify p.1, p.2)) ∘ fun p => (hexlify p.1, p.2)) p = id p := by
      intro p hp
      simp only [Function.comp_apply, id]
      rw [unhexlify_hexlify _ (hq p hp)]
    rw [List.map_congr_left this, List.map_id]
  cases s with
  | mk vc q d u =>
    simp only at hvc2 hq2 hf ⊢
    rw [hvc2, hq2]
    simp only [Option.map_some']
    rw [hf]

/-- Witness for C9 at a concrete one-entry state. -/
theorem config_round_trip_witness :
    (∀ p ∈ ([([1], ([2, 3], [4, 5]))] :
        List (List Nat × (List Nat × List Nat))),
      (∀ x ∈ p.2.1, x < 256) ∧ ∀ x ∈ p.2.2, x < 256) ∧
    (∀ p ∈ ([([6, 7], 2)] : List (List Nat × Nat)), ∀ x ∈ p.1, x < 256) ∧
    (∀ x ∈ ([8, 9] : List Nat), x < 256) ∧
    load_config [(hexlify [8, 9], List.replicate 12 0 ++ [8, 9])]
      (save_config
        { vc_dict := [([1], ([2, 3], [4, 5]))]
          apply_queue := [([6, 7], 2)]
          apply_dict := [([1], 1)]
          update_fid := [8, 9] }) =
      some { vc_dict := [([1], ([2, 3], [4, 5]))]
             apply_queue := [([6, 7], 2)]
             apply_dict := [([1], 1)]
             update_fid := [8, 9] } :=
  ⟨by decide, by decide, by decide,
    config_round_trip _ _ (by decide) (by decide) (by decide)
      ⟨List.replicate 12 0 ++ [8, 9], by decide, by decide⟩⟩

/-! ### `_apply_update` of the version manager (claim C10) -/

/-- Association-list lookup for string-keyed Python dictionaries. -/
def slookup {β : Type} (l : List (Str × β)) (k : Str) : Option β :=
  (l.find? fun p => p.1 == k).map fun p => p.2

/-- Overwrite-or-append update of a string-keyed dictionary. -/
def supdate {β : Type} (l : List (Str × β)) (k : Str) (v : β) : List (Str × β) :=
  if (l.find? fun p => p.1 == k).isSome then
    l.map fun p => if p.1 == k then (k, v) else p
  else l ++ [(k, v)]

/-- Overwrite-or-append update of a byte-keyed dictionary. -/
def bupdate {β : Type} (l : List (List Nat × β)) (k : List Nat) (v : β) :
    List (List Nat × β) :=
  if (l.find? fun p => p.1 == k).isSome then
    l.map fun p => if p.1 == k then (k, v) else p
  else l ++ [(k, v)]

/-- Deletion from a byte-keyed dictionary (`del d[k]`). -/
def bremove {β : Type} (l : List (List Nat × β)) (k : List Nat) :
    List (List Nat × β) :=
  l.filter fun p => !(p.1 == k)

/-- Modelled from the spec: the observables of a file update feed that
`_apply_update` reads through the missing `ussb/feed.py` module
(`get_feed`, `length`, `get_upd`, `waiting_for_blob`): the monitored
file name and base version from the updfile packet at seq 2, the feed
length `front_seq - anchor_seq`, and whether the front blob chain is
incomplete. -/
structure FileFeed where
  file_name : Str
  minv : Nat
  feed_length : Nat
  waiting : Bool
  deriving DecidableEq, Repr

/-- The version-manager state that `_apply_update` touches: the apply
queue, the applied-version dictionary, and the workspace files. -/
structure VMApplyState where
  apply_queue : List (List Nat × Nat)
  apply_dict : List (Str × Nat)
  files : List (Str × Str)
  deriving DecidableEq, Repr

/-- `_apply_update(fid, seq)` (version_manager.py lines 334-405).
The per-version change computation `jump_versions(current, target, feed)`
is abstracted as the argument `jump` (its path processing is embedded
separately as `jumpPathChanges`).  The three guard paths enqueue the
update and return normally; opening a missing file
(`FileNotFoundError`) and the `apply_dict[file_name]` access on an
absent key (`KeyError`) raise before any state is mutated, modelled by
`none`. -/
def apply_update (jump : Nat → Nat → FileFeed → List Change)
    (feeds : List (List Nat × FileFeed)) (s : VMApplyState)
    (fid : List Nat) (seqBytes : List Nat) : Option VMApplyState :=
  let int_seq := natFromBytesBE seqBytes
  match alookup feeds fid with
  | none =>
    if alookup s.apply_queue fid = some int_seq then some s
    else some { s with apply_queue := bupdate s.apply_queue fid int_seq }
  | some ff =>
    let newest_version : Int := ((ff.feed_length : Int) - 3) + ff.minv
    if newest_version < int_seq then
      if alookup s.apply_queue fid = some int_seq then some s
      else some { s with apply_queue := bupdate s.apply_queue fid int_seq }
    else if newest_version = int_seq ∧ ff.waiting then
      if alookup s.apply_queue fid = some int_seq then some s
      else some { s with apply_queue := bupdate s.apply_queue fid int_seq }
    else
      (slookup s.files ff.file_name).bind fun content =>
        (slookup s.apply_dict ff.file_name).bind fun current_apply =>
          if int_seq = current_apply then some s
          else
            (apply_changes content (jump current_apply int_seq ff)).map fun new_content =>
              { apply_queue := bremove s.apply_queue fid
                apply_dict := supdate s.apply_dict ff.file_name int_seq
                files := supdate s.files ff.file_name new_content }

/-- Claim C10: `_apply_update` reaches its apply step only when the file
name of the feed's updfile packet is a key of `apply_dict` and the file
exists in the workspace.  When the feed is present and the requested
version available (none of the enqueue guards fires), any successful
outcome implies both lookups succeeded; in particular, when the file
name is absent from `apply_dict` the call fails (a `KeyError` before any
mutation) instead of defaulting the applied version to 0. -/
theorem apply_update_requires_applied_entry
    (jump : Nat → Nat → FileFeed → List Change)
    (feeds : List (List Nat × FileFeed)) (s : VMApplyState)
    (fid seqBytes : List Nat) (ff : FileFeed)
    (hfeed : alookup feeds fid = some ff)
    (hnew : ¬(((ff.feed_length : Int) - 3) + ff.minv < natFromBytesBE seqBytes))
    (hwait : ¬(((ff.feed_length : Int) - 3) + ff.minv = natFromBytesBE seqBytes ∧
      ff.waiting))
    (s2 : VMApplyState)
    (hok : apply_update jump feeds s fid seqBytes = some s2) :
    (slookup s.files ff.file_name).isSome ∧
      (slookup s.apply_dict ff.file_name).isSome := by
  unfold apply_update at hok
  rw [hfeed] at hok
  simp only [if_neg hnew, if_neg hwait] at hok
  cases hc : slookup s.files ff.file_name with
  | none => rw [hc] at hok; simp at hok
  | some content =>
    rw [hc] at hok
    cases hd : slookup s.apply_dict ff.file_name with
    | none => rw [hd] at hok; simp at hok
    | some v => refine ⟨?_, ?_⟩ <;> simp [hc, hd]

/-- The concrete file feed used in the C10 witness. -/
def c10Feed : FileFeed :=
  { file_name := "f.txt".data, minv := 1, feed_length := 4, waiting := false }

/-- The concrete manager state used in the C10 witness. -/
def c10State : VMApplyState :=
  { apply_queue := [], apply_dict := [("f.txt".data, 1)],
    files := [("f.txt".data, "x".data)] }

/-- The state after the C10 witness apply step. -/
def c10StateAfter : VMApplyState :=
  { apply_queue := [], apply_dict := [("f.txt".data, 2)],
    files := [("f.txt".data, "x".data)] }

/-- Witness for C10: a concrete state in which the guards pass and the
apply step runs, with both the file and the apply_dict entry present. -/
theorem apply_update_requires_applied_entry_witness :
    (alookup [([1, 1], c10Feed)] [1, 1] = some c10Feed) ∧
    (slookup c10State.files c10Feed.file_name).isSome ∧
      (slookup c10State.apply_dict c10Feed.file_name).isSome :=
  ⟨by decide,
    apply_update_requires_applied_entry (fun _ _ _ => []) [([1, 1], c10Feed)] c10State
      [1, 1] [0, 0, 0, 2] c10Feed
      (by decide) (by decide) (by decide)
      c10StateAfter
      (by decide)⟩
